import Mathlib

/-!
Verification of the reactive signal engine
(`packages/tiny-react-signals/src/core.ts`).

The engine is shallowly embedded: JS values that the claims exercise are
modelled by the inductive `Val` (with `Val.undef` playing the role of
`undefined`; `Object.is` and `!==` on these primitives coincide with
structural equality), the mutable singleton `ReactiveEngineImpl` becomes the
explicit state record `EngineState`, JS `Map`s (which preserve insertion
order) become association lists with in-place replacement, and JS `Set`s
become duplicate-free lists in insertion order.  Subscriber callbacks and
element bindings are side effects; invoking one is modelled by appending an
`Event` to the `trace` field of the state, so counting invocations means
counting trace events.  The mutual recursion `updateSignal` /
`recomputeSignal` is bounded by explicit fuel, consumed once per
update-to-recompute step; every claim is settled with ample fuel.
-/

namespace TinySignals

/-- JS values exercised by the claims. `undef` models `undefined`. -/
inductive Val where
  | undef : Val
  | num : Int → Val
  | str : String → Val
deriving DecidableEq

/-- One observer invocation, recorded instead of running the JS callback. -/
inductive Event where
  | callback (signalId : String) (callbackId : Nat) (value : Val)
  | binding (signalId : String) (bindingId : Nat) (value : Val)
deriving DecidableEq

/-- An element binding: `element.isConnected` becomes the `connected` flag,
the bound function is identified by `bindId` (its invocations are traced). -/
structure Binding where
  bindId : Nat
  connected : Bool
  condition : Option (Val → Bool)

/-- The `Signal` record of `core.ts` (with the `depCache` field of
`ComputedSignal`, absent — `none` — until `recomputeSignal` allocates it). -/
structure Signal where
  value : Val
  rawValue : Val
  bindings : List Binding
  callbacks : List Nat
  computed : List String
  computeFn : Option (List Val → Val)
  dependencies : Option (List String)
  transformers : Option (List (Val → Val))
  hasTransformers : Bool
  hasComputed : Bool
  depCache : Option (List Val)

/-- The mutable fields of `ReactiveEngineImpl`, plus the event trace. -/
structure EngineState where
  signals : List (String × Signal)
  isBatching : Bool
  batchedUpdates : List String
  bindingCounter : Nat
  trace : List Event

/-- The `transform` option: a single function or a chain (`core.ts` line 12). -/
inductive TransformArg where
  | single (f : Val → Val)
  | chain (ts : List (Val → Val))

/-- `normalizeTransformers`: wrap a single transformer into a chain. -/
def normalizeTransformers : TransformArg → List (Val → Val)
  | .single f => [f]
  | .chain ts => ts

/-- `applyTransformers`: run the chain in order (the single-element fast
path of the source is semantically the one-step fold). -/
def applyTransformers (value : Val) (transformers : List (Val → Val)) : Val :=
  match transformers with
  | [t] => t value
  | ts => ts.foldl (fun r t => t r) value

/-- `mergeTransformers`: concatenate chains, either side may be absent. -/
def mergeTransformers (existing newTransformers : Option (List (Val → Val))) :
    Option (List (Val → Val)) :=
  match existing, newTransformers with
  | none, b => b
  | a, none => a
  | some a, some b => some (a ++ b)

/-- JS `Set.add` / insertion-ordered set on lists. -/
def addUnique (l : List String) (id : String) : List String :=
  if id ∈ l then l else l ++ [id]

/-- `Map.get` on the registry association list. -/
def lookupEntry : List (String × Signal) → String → Option Signal
  | [], _ => none
  | (k, sig) :: rest, id => if k = id then some sig else lookupEntry rest id

/-- `Map.set`: replace in place if present, append otherwise. -/
def setEntry : List (String × Signal) → String → Signal → List (String × Signal)
  | [], id, sig => [(id, sig)]
  | (k, v) :: rest, id, sig =>
      if k = id then (id, sig) :: rest else (k, v) :: setEntry rest id sig

/-- `Map.delete`. -/
def removeEntry : List (String × Signal) → String → List (String × Signal)
  | [], _ => []
  | (k, v) :: rest, id => if k = id then rest else (k, v) :: removeEntry rest id

def lookupSignal (s : EngineState) (id : String) : Option Signal :=
  lookupEntry s.signals id

def putSignal (s : EngineState) (id : String) (sig : Signal) : EngineState :=
  { s with signals := setEntry s.signals id sig }

/-- `getValue`: `this.signals.get(id)?.value` (`undefined` for unknown ids). -/
def getValue (s : EngineState) (id : String) : Val :=
  match lookupSignal s id with
  | some sig => sig.value
  | none => Val.undef

/-- `getRawValue`. -/
def getRawValue (s : EngineState) (id : String) : Val :=
  match lookupSignal s id with
  | some sig => sig.rawValue
  | none => Val.undef

/-- A binding's guard condition (`true` when no condition is attached). -/
def bindingPasses (b : Binding) (v : Val) : Bool :=
  match b.condition with
  | some c => c v
  | none => true

/-- The observer invocations `executeDOMUpdates` performs for one signal:
callbacks only (fast path) when there are no bindings; otherwise connected,
condition-passing bindings first, then all callbacks. -/
def notifyEvents (id : String) (sig : Signal) : List Event :=
  let v := sig.value
  if sig.bindings.length = 0 ∧ 0 < sig.callbacks.length then
    sig.callbacks.map (fun cb => Event.callback id cb v)
  else
    (if 0 < sig.bindings.length then
      (sig.bindings.filter (fun b => b.connected && bindingPasses b v)).map
        (fun b => Event.binding id b.bindId v)
    else []) ++
    (if 0 < sig.callbacks.length then
      sig.callbacks.map (fun cb => Event.callback id cb v)
    else [])

/-- `executeDOMUpdates`: look the signal up and invoke its observers
(observer invocations are traced; the registry is not modified). -/
def executeDOMUpdates (id : String) (s : EngineState) : EngineState :=
  match lookupSignal s id with
  | none => s
  | some sig => { s with trace := s.trace ++ notifyEvents id sig }

/-- The body of `updateSignal`, with the recursive dependent-recompute call
abstracted as `recomp` (tied to fuel in `updateSignal` below). -/
def updateSignalGo (recomp : String → EngineState → EngineState)
    (id : String) (v : Val) (s : EngineState) : EngineState :=
  match lookupSignal s id with
  | none => s
  | some sig =>
    if sig.hasTransformers = false then
      if sig.value = v then s
      else
        let sig2 := { sig with rawValue := v, value := v }
        let s1 := putSignal s id sig2
        if s1.isBatching then
          { s1 with batchedUpdates := addUnique s1.batchedUpdates id }
        else if 0 < sig2.callbacks.length ∧ sig2.bindings.length = 0 ∧
            sig2.hasComputed = false then
          { s1 with trace := s1.trace ++
              sig2.callbacks.map (fun cb => Event.callback id cb v) }
        else
          let s2 := executeDOMUpdates id s1
          if sig2.hasComputed then
            sig2.computed.foldl (fun st cid => recomp cid st) s2
          else s2
    else
      let newValue := applyTransformers v (sig.transformers.getD [])
      if sig.value = newValue then s
      else
        let sig2 := { sig with rawValue := v, value := newValue }
        let s1 := putSignal s id sig2
        if s1.isBatching then
          { s1 with batchedUpdates := addUnique s1.batchedUpdates id }
        else
          let s2 := executeDOMUpdates id s1
          if sig2.hasComputed then
            sig2.computed.foldl (fun st cid => recomp cid st) s2
          else s2

/-- The body of `recomputeSignal`, with the write-through call abstracted as
`upd`.  The dependency cache is (re)allocated `undefined`-filled when absent
or of the wrong length, refreshed entrywise, and the compute function runs
only when some cached dependency value changed. -/
def recomputeGo (upd : String → Val → EngineState → EngineState)
    (id : String) (s : EngineState) : EngineState :=
  match lookupSignal s id with
  | none => s
  | some sig =>
    match sig.computeFn, sig.dependencies with
    | some f, some deps =>
      let cache0 : List Val :=
        match sig.depCache with
        | some c => if c.length = deps.length then c
                    else List.replicate deps.length Val.undef
        | none => List.replicate deps.length Val.undef
      let newVals := deps.map (fun d => getValue s d)
      let s1 := putSignal s id { sig with depCache := some newVals }
      if cache0 ≠ newVals then upd id (f newVals) s1 else s1
    | _, _ => s

/-- `updateSignal`, fuel-bounded: each update-to-recompute descent consumes
one unit of fuel (the JS original recurses unboundedly; claims are settled
with fuel ample for their dependency depth). -/
def updateSignal : Nat → String → Val → EngineState → EngineState
  | 0, id, v, s => updateSignalGo (fun _ st => st) id v s
  | fuel + 1, id, v, s =>
      updateSignalGo (fun cid st => recomputeGo (updateSignal fuel) cid st) id v s

/-- `recomputeSignal`. -/
def recomputeSignal (fuel : Nat) (id : String) (s : EngineState) : EngineState :=
  recomputeGo (updateSignal fuel) id s

/-- `createSignal`: no-op when the id exists; otherwise normalize and apply
any transformers and register the new signal. -/
def createSignal (id : String) (initialValue : Val) (transform : Option TransformArg)
    (s : EngineState) : EngineState :=
  if (lookupSignal s id).isSome then s
  else
    match transform with
    | some t =>
      let ts := normalizeTransformers t
      putSignal s id
        { value := applyTransformers initialValue ts, rawValue := initialValue
          bindings := [], callbacks := [], computed := [], computeFn := none
          dependencies := none, transformers := some ts, hasTransformers := true
          hasComputed := false, depCache := none }
    | none =>
      putSignal s id
        { value := initialValue, rawValue := initialValue
          bindings := [], callbacks := [], computed := [], computeFn := none
          dependencies := none, transformers := none, hasTransformers := false
          hasComputed := false, depCache := none }

/-- `upsertSignal`: on an existing id, merge any supplied transformers onto
the existing chain (value untouched); otherwise create. -/
def upsertSignal (id : String) (initialValue : Val) (transform : Option TransformArg)
    (s : EngineState) : EngineState :=
  match lookupSignal s id with
  | some sig =>
    match transform with
    | some t =>
      let merged := mergeTransformers sig.transformers
        (some (normalizeTransformers t))
      putSignal s id
        { sig with transformers := merged, hasTransformers := merged.isSome }
    | none => s
  | none => createSignal id initialValue transform s

/-- `createComputed`: no-op when the id exists; otherwise compute the initial
value eagerly from current dependency values (missing ones `undefined`),
apply transformers, register the signal, and record it as a dependent of
every dependency that exists. -/
def createComputed (id : String) (dependencies : List String)
    (computeFn : List Val → Val) (transform : Option TransformArg)
    (s : EngineState) : EngineState :=
  if (lookupSignal s id).isSome then s
  else
    let initialValue := computeFn (dependencies.map (fun d => getValue s d))
    let s1 :=
      match transform with
      | some t =>
        let ts := normalizeTransformers t
        putSignal s id
          { value := applyTransformers initialValue ts, rawValue := initialValue
            bindings := [], callbacks := [], computed := []
            computeFn := some computeFn, dependencies := some dependencies
            transformers := some ts, hasTransformers := true
            hasComputed := false, depCache := none }
      | none =>
        putSignal s id
          { value := initialValue, rawValue := initialValue
            bindings := [], callbacks := [], computed := []
            computeFn := some computeFn, dependencies := some dependencies
            transformers := none, hasTransformers := false
            hasComputed := false, depCache := none }
    dependencies.foldl (fun st depId =>
      match lookupSignal st depId with
      | some depSig =>
          putSignal st depId
            { depSig with computed := addUnique depSig.computed id
                          hasComputed := true }
      | none => st) s1

/-- `subscribe`: register a callback id on an existing signal (`none` for an
unknown id), returning the unsubscribe handle as the fresh callback id. -/
def subscribe (id : String) (s : EngineState) : EngineState × Option Nat :=
  match lookupSignal s id with
  | none => (s, none)
  | some sig =>
    let cbId := s.bindingCounter + 1
    ({ putSignal s id { sig with callbacks := sig.callbacks ++ [cbId] } with
        bindingCounter := cbId }, some cbId)

/-- `cleanup`: clear the signal's observers and delete it from the registry;
no-op for an unknown id.  (Dependency-graph edges are not touched.) -/
def cleanup (id : String) (s : EngineState) : EngineState :=
  match lookupSignal s id with
  | some _ => { s with signals := removeEntry s.signals id }
  | none => s

/-- `flushBatchedUpdates`: snapshot and clear the pending set; collect the
direct dependents of pending signals; recompute each collected dependent once
against current dependency values, appending changed ones to the flush list
(writing `value` directly — no transformers, no `rawValue`, no cache); then
notify each entry of the flush list in order. -/
def flushBatchedUpdates (s : EngineState) : EngineState :=
  if s.batchedUpdates = [] then s
  else
    let updatedSignals := s.batchedUpdates
    let s0 := { s with batchedUpdates := ([] : List String) }
    let computedSignals := updatedSignals.foldl (fun acc sid =>
      match lookupSignal s0 sid with
      | some sig => if sig.hasComputed then sig.computed.foldl addUnique acc else acc
      | none => acc) []
    let recomputed := computedSignals.foldl (fun (p : EngineState × List String) cid =>
      match lookupSignal p.1 cid with
      | some sig =>
        match sig.computeFn, sig.dependencies with
        | some f, some deps =>
          let depValues := deps.map (fun d => getValue p.1 d)
          let newValue := f depValues
          if sig.value ≠ newValue then
            (putSignal p.1 cid { sig with value := newValue }, p.2 ++ [cid])
          else p
        | _, _ => p
      | none => p) (s0, [])
    (updatedSignals ++ recomputed.2).foldl
      (fun st sid => executeDOMUpdates sid st) recomputed.1

/-- `batchUpdate`.  `fn` models the user block: it transforms the state and
reports whether it threw (mutations made before a throw persist, as in JS).
Nested calls run inline; the outermost call flushes in a `finally`, so the
flush runs even when `fn` throws, and the exception flag is passed on. -/
def batchUpdate (fn : EngineState → EngineState × Bool) (s : EngineState) :
    EngineState × Bool :=
  if s.isBatching then fn s
  else
    let r := fn { s with isBatching := true }
    (flushBatchedUpdates { r.1 with isBatching := false }, r.2)

/-- The freshly constructed engine. -/
def initState : EngineState :=
  { signals := [], isBatching := false, batchedUpdates := []
    bindingCounter := 0, trace := [] }

/-! ## Derived notions used by the claims -/

/-- The transformer chain the engine actually applies on a write: the stored
chain when `hasTransformers` is set, nothing otherwise. -/
def chainOf (sig : Signal) : List (Val → Val) :=
  if sig.hasTransformers then sig.transformers.getD [] else []

/-- The spec's cell invariant: the visible `value` is the transformer chain
applied in order to `rawValue`. -/
def SignalInv (sig : Signal) : Prop :=
  sig.value = applyTransformers sig.rawValue (chainOf sig)

/-- The invariant over the whole registry. -/
def EngineInv (s : EngineState) : Prop :=
  ∀ id sig, lookupSignal s id = some sig → SignalInv sig

/-- The post-transform value a write of `v` produces on `sig` (the value the
identity gate of `updateSignal` compares against the current `value`). -/
def effValue (sig : Signal) (v : Val) : Val :=
  if sig.hasTransformers then applyTransformers v (sig.transformers.getD []) else v

/-! ## Concrete scenario material

Compute functions and transformers used by the spec's own examples, and the
states the testable-property scenarios build. -/

/-- `x => x * 2` on the single dependency. -/
def mul2 : List Val → Val
  | [Val.num n] => Val.num (n * 2)
  | _ => Val.undef

/-- Transformer `x => x + 100`. -/
def plus100 : Val → Val
  | Val.num n => Val.num (n + 100)
  | v => v

/-- Transformer `x => x + 1`. -/
def plus1 : Val → Val
  | Val.num n => Val.num (n + 1)
  | v => v

/-- Transformer `x => x * 10`. -/
def times10 : Val → Val
  | Val.num n => Val.num (n * 10)
  | v => v

/-- The spec's computed-chain scenario: `base = 1`,
`doubled = computed(["base"], x => x*2)`, `quad = computed(["doubled"], x => x*2)`. -/
def chainSetup : EngineState :=
  createComputed "quad" ["doubled"] mul2 none
    (createComputed "doubled" ["base"] mul2 none
      (createSignal "base" (Val.num 1) none initState))

/-- A single plain cell `c = 0` with one subscribed callback (id 1). -/
def oneCellSub : EngineState :=
  (subscribe "c" (createSignal "c" (Val.num 0) none initState)).1

/-- `b = 1` with a computed dependent `d = computed(["b"], x => x*2)` and a
subscriber (id 1) on `d`. -/
def depSubSetup : EngineState :=
  (subscribe "d"
    (createComputed "d" ["b"] mul2 none
      (createSignal "b" (Val.num 1) none initState))).1

/-- `chainSetup` after `set("base", 5)` outside any batch. -/
def chainAfterSet : EngineState :=
  updateSignal 10 "base" (Val.num 5) chainSetup

/-- `b = 1` and `c = computed(["b"], x => x*2, {transform: x => x+100})`,
then `batch(() => set("b", 3))`. -/
def flushTransformState : EngineState :=
  (batchUpdate (fun st => (updateSignal 5 "b" (Val.num 3) st, false))
    (createComputed "c" ["b"] mul2 (some (.single plus100))
      (createSignal "b" (Val.num 1) none initState))).1

/-- `depSubSetup` after `batch(() => { set("b", 5); set("d", 99) })`: the
computed cell `d` is written directly inside the batch and is also a
dependent of `b`, which is written in the same batch. -/
def writtenDependentState : EngineState :=
  (batchUpdate (fun st =>
    (updateSignal 5 "d" (Val.num 99) (updateSignal 5 "b" (Val.num 5) st), false))
    depSubSetup).1

/-- `chainSetup` with subscribers on `base` (1), `doubled` (2), `quad` (3). -/
def chainSubSetup : EngineState :=
  (subscribe "quad" (subscribe "doubled" (subscribe "base" chainSetup).1).1).1

/-- `chainSubSetup` after `batch(() => set("base", 5))`. -/
def chainFlushState : EngineState :=
  (batchUpdate (fun st => (updateSignal 5 "base" (Val.num 5) st, false))
    chainSubSetup).1

/-- `upsert("a", 0, {transform: x => x+1})` then
`upsert("a", 0, {transform: x => x*10})`. -/
def doubleUpsertState : EngineState :=
  upsertSignal "a" (Val.num 0) (some (.single times10))
    (upsertSignal "a" (Val.num 0) (some (.single plus1)) initState)

/-- `b = 1`, `c = computed(["b"], x => x*2)`, then `remove("c")`. -/
def removedComputedState : EngineState :=
  cleanup "c"
    (createComputed "c" ["b"] mul2 none
      (createSignal "b" (Val.num 1) none initState))

/-! ## Registry lemmas -/

theorem applyTransformers_nil (v : Val) : applyTransformers v [] = v := rfl

theorem lookupEntry_setEntry_self (l : List (String × Signal)) (id : String)
    (sig : Signal) : lookupEntry (setEntry l id sig) id = some sig := by
  induction l with
  | nil => simp [setEntry, lookupEntry]
  | cons p rest ih =>
    by_cases hk : p.1 = id
    · simp [setEntry, hk, lookupEntry]
    · simp [setEntry, hk, lookupEntry, ih]

theorem lookupEntry_setEntry_other (l : List (String × Signal)) (id id2 : String)
    (sig : Signal) (h : id ≠ id2) :
    lookupEntry (setEntry l id sig) id2 = lookupEntry l id2 := by
  induction l with
  | nil => simp [setEntry, lookupEntry, h]
  | cons p rest ih =>
    by_cases hk : p.1 = id
    · have hk2 : p.1 ≠ id2 := by rw [hk]; exact h
      simp [setEntry, hk, lookupEntry, h, hk2]
    · by_cases hk2 : p.1 = id2
      · simp [setEntry, hk, lookupEntry, hk2, Ne.symm h]
      · simp [setEntry, hk, lookupEntry, hk2, ih]

theorem lookupSignal_putSignal_self (s : EngineState) (id : String) (sig : Signal) :
    lookupSignal (putSignal s id sig) id = some sig :=
  lookupEntry_setEntry_self s.signals id sig

theorem lookupSignal_putSignal_other (s : EngineState) (id id2 : String)
    (sig : Signal) (h : id ≠ id2) :
    lookupSignal (putSignal s id sig) id2 = lookupSignal s id2 :=
  lookupEntry_setEntry_other s.signals id id2 sig h

theorem lookupEntry_eq_none_of_not_mem (l : List (String × Signal)) (id : String)
    (h : id ∉ l.map Prod.fst) : lookupEntry l id = none := by
  induction l with
  | nil => rfl
  | cons p rest ih =>
    simp only [List.map_cons, List.mem_cons] at h
    push_neg at h
    have hk : p.1 ≠ id := fun he => h.1 he.symm
    simp [lookupEntry, hk, ih h.2]

theorem lookupEntry_removeEntry_self (l : List (String × Signal)) (id : String)
    (hnd : (l.map Prod.fst).Nodup) : lookupEntry (removeEntry l id) id = none := by
  induction l with
  | nil => rfl
  | cons p rest ih =>
    simp only [List.map_cons, List.nodup_cons] at hnd
    by_cases hk : p.1 = id
    · rw [removeEntry, if_pos hk]
      exact lookupEntry_eq_none_of_not_mem rest id (hk ▸ hnd.1)
    · rw [removeEntry, if_neg hk]
      simp [lookupEntry, hk, ih hnd.2]

theorem lookupEntry_removeEntry_other (l : List (String × Signal)) (id id2 : String)
    (h : id2 ≠ id) : lookupEntry (removeEntry l id) id2 = lookupEntry l id2 := by
  induction l with
  | nil => rfl
  | cons p rest ih =>
    by_cases hk : p.1 = id
    · have hk2 : p.1 ≠ id2 := by rw [hk]; exact fun he => h he.symm
      simp [removeEntry, hk, lookupEntry, hk2, Ne.symm h]
    · by_cases hk2 : p.1 = id2
      · simp [removeEntry, hk, lookupEntry, hk2, h]
      · simp [removeEntry, hk, lookupEntry, hk2, ih]

/-- `executeDOMUpdates` only appends to the trace; the registry is untouched. -/
theorem lookupSignal_executeDOMUpdates (id id2 : String) (s : EngineState) :
    lookupSignal (executeDOMUpdates id s) id2 = lookupSignal s id2 := by
  unfold executeDOMUpdates
  cases lookupSignal s id <;> rfl

/-- A fold whose step preserves a state property preserves it. -/
theorem foldl_preserves {σ α : Type} (P : σ → Prop) (step : σ → α → σ)
    (hstep : ∀ st a, P st → P (step st a)) :
    ∀ (l : List α) (st : σ), P st → P (l.foldl step st) := by
  intro l
  induction l with
  | nil => intro st h; exact h
  | cons a rest ih => intro st h; exact ih _ (hstep st a h)

/-! ## The value/transformer invariant (claim C1) -/

theorem engineInv_put (s : EngineState) (id : String) (sig : Signal)
    (h : EngineInv s) (hsig : SignalInv sig) : EngineInv (putSignal s id sig) := by
  intro id2 sig2 h2
  by_cases he : id = id2
  · subst he
    rw [lookupSignal_putSignal_self] at h2
    cases h2
    exact hsig
  · rw [lookupSignal_putSignal_other s id id2 sig he] at h2
    exact h id2 sig2 h2

theorem engineInv_executeDOMUpdates (id : String) (s : EngineState)
    (h : EngineInv s) : EngineInv (executeDOMUpdates id s) := by
  intro id2 sig2 h2
  rw [lookupSignal_executeDOMUpdates] at h2
  exact h id2 sig2 h2

theorem signalInv_write_plain (sig : Signal) (v : Val)
    (ht : sig.hasTransformers = false) :
    SignalInv { sig with rawValue := v, value := v } := by
  simp [SignalInv, chainOf, ht, applyTransformers_nil]

theorem signalInv_write_transformed (sig : Signal) (v : Val)
    (ht : ¬sig.hasTransformers = false) :
    SignalInv { sig with rawValue := v
                         value := applyTransformers v (sig.transformers.getD []) } := by
  simp only [Bool.not_eq_false] at ht
  simp [SignalInv, chainOf, ht]

theorem updateSignalGo_inv (recomp : String → EngineState → EngineState)
    (hrec : ∀ cid st, EngineInv st → EngineInv (recomp cid st))
    (id : String) (v : Val) (s : EngineState) (h : EngineInv s) :
    EngineInv (updateSignalGo recomp id v s) := by
  unfold updateSignalGo
  cases hl : lookupSignal s id with
  | none => exact h
  | some sig =>
    dsimp only
    by_cases ht : sig.hasTransformers = false
    · rw [if_pos ht]
      by_cases hv : sig.value = v
      · rw [if_pos hv]; exact h
      · rw [if_neg hv]
        have h1 : EngineInv (putSignal s id { sig with rawValue := v, value := v }) :=
          engineInv_put s id _ h (signalInv_write_plain sig v ht)
        by_cases hb : (putSignal s id { sig with rawValue := v, value := v }).isBatching
        · rw [if_pos hb]
          exact fun id2 sig2 h2 => h1 id2 sig2 h2
        · rw [if_neg hb]
          split
          · exact fun id2 sig2 h2 => h1 id2 sig2 h2
          · split
            · exact foldl_preserves EngineInv _ (fun st a hst => hrec a st hst) _ _
                (engineInv_executeDOMUpdates id _ h1)
            · exact engineInv_executeDOMUpdates id _ h1
    · rw [if_neg ht]
      by_cases hv : sig.value = applyTransformers v (sig.transformers.getD [])
      · rw [if_pos hv]; exact h
      · rw [if_neg hv]
        have h1 : EngineInv (putSignal s id
            { sig with rawValue := v
                       value := applyTransformers v (sig.transformers.getD []) }) :=
          engineInv_put s id _ h (signalInv_write_transformed sig v ht)
        by_cases hb : (putSignal s id
            { sig with rawValue := v
                       value := applyTransformers v (sig.transformers.getD []) }).isBatching
        · rw [if_pos hb]
          exact fun id2 sig2 h2 => h1 id2 sig2 h2
        · rw [if_neg hb]
          split
          · exact foldl_preserves EngineInv _ (fun st a hst => hrec a st hst) _ _
              (engineInv_executeDOMUpdates id _ h1)
          · exact engineInv_executeDOMUpdates id _ h1

theorem recomputeGo_inv (upd : String → Val → EngineState → EngineState)
    (hupd : ∀ id v st, EngineInv st → EngineInv (upd id v st))
    (id : String) (s : EngineState) (h : EngineInv s) :
    EngineInv (recomputeGo upd id s) := by
  unfold recomputeGo
  cases hl : lookupSignal s id with
  | none => exact h
  | some sig =>
    dsimp only
    have hsig : SignalInv sig := h id sig hl
    cases hf : sig.computeFn with
    | none => cases sig.dependencies <;> exact h
    | some f =>
      cases hd : sig.dependencies with
      | none => exact h
      | some deps =>
        dsimp only
        have h1 : EngineInv (putSignal s id
            { sig with computeFn := some f
                       dependencies := some deps
                       depCache := some (deps.map (fun d => getValue s d)) }) :=
          engineInv_put s id _ h hsig
        split
        · exact hupd _ _ _ h1
        · exact h1

theorem updateSignal_inv (fuel : Nat) (id : String) (v : Val) (s : EngineState)
    (h : EngineInv s) : EngineInv (updateSignal fuel id v s) := by
  induction fuel generalizing id v s with
  | zero => exact updateSignalGo_inv _ (fun _ _ hst => hst) id v s h
  | succ n ih =>
    exact updateSignalGo_inv _
      (fun cid st hst => recomputeGo_inv _ (fun id2 v2 st2 h2 => ih id2 v2 st2 h2) cid st hst)
      id v s h

theorem createSignal_inv (id : String) (v : Val) (t : Option TransformArg)
    (s : EngineState) (h : EngineInv s) : EngineInv (createSignal id v t s) := by
  unfold createSignal
  split
  · exact h
  · cases t with
    | some t0 =>
      exact engineInv_put s id _ h (by simp [SignalInv, chainOf])
    | none =>
      exact engineInv_put s id _ h (by simp [SignalInv, chainOf, applyTransformers_nil])

theorem createComputed_inv (id : String) (deps : List String) (f : List Val → Val)
    (t : Option TransformArg) (s : EngineState) (h : EngineInv s) :
    EngineInv (createComputed id deps f t s) := by
  unfold createComputed
  split
  · exact h
  · refine foldl_preserves EngineInv _ (fun st a hst => ?_) deps _ ?_
    · cases hl : lookupSignal st a with
      | none => exact hst
      | some depSig =>
        exact engineInv_put st a _ hst (hst a depSig hl)
    · cases t with
      | some t0 => exact engineInv_put s id _ h (by simp [SignalInv, chainOf])
      | none => exact engineInv_put s id _ h (by simp [SignalInv, chainOf, applyTransformers_nil])

theorem upsertSignal_plain_inv (id : String) (v : Val) (s : EngineState)
    (h : EngineInv s) : EngineInv (upsertSignal id v none s) := by
  unfold upsertSignal
  cases hl : lookupSignal s id with
  | some sig => exact h
  | none => exact createSignal_inv id v none s h

/-- C1 amended: the invariant `value = transformers applied in order to
rawValue` is established and preserved by `createSignal`, plain `upsertSignal`
(no new transformers, or a fresh id), `updateSignal` (any fuel),
`createComputed`, and `recomputeSignal`.  It is NOT maintained by an upsert
that merges new transformers onto an existing cell, nor by the batch-flush
recompute path, which writes the untransformed compute result (see the C1
counterexample). -/
theorem c1_amended_value_invariant (s : EngineState) (h : EngineInv s) :
    (∀ fuel id v, EngineInv (updateSignal fuel id v s)) ∧
    (∀ id v t, EngineInv (createSignal id v t s)) ∧
    (∀ id v, EngineInv (upsertSignal id v none s)) ∧
    (∀ id deps f t, EngineInv (createComputed id deps f t s)) ∧
    (∀ fuel id, EngineInv (recomputeSignal fuel id s)) := by
  refine ⟨fun fuel id v => updateSignal_inv fuel id v s h,
          fun id v t => createSignal_inv id v t s h,
          fun id v => upsertSignal_plain_inv id v s h,
          fun id deps f t => createComputed_inv id deps f t s h,
          fun fuel id => recomputeGo_inv _ (fun id2 v2 st2 h2 => updateSignal_inv fuel id2 v2 st2 h2) id s h⟩

/-- Witness for C1 amended: the invariant hypothesis holds for the fresh
engine, and the theorem then yields it for a concrete write. -/
theorem c1_amended_value_invariant_witness :
    EngineInv (updateSignal 1 "a" (Val.num 2) initState) :=
  (c1_amended_value_invariant initState (fun _ _ hl => Option.noConfusion hl)).1 1 "a" (Val.num 2)

/-! ## The single-cell-with-subscriber scenario -/

/-- A plain cell holding `w` with exactly one subscribed callback (id 1). -/
def cellC (w : Val) : Signal :=
  { value := w, rawValue := w, bindings := [], callbacks := [1], computed := []
    computeFn := none, dependencies := none, transformers := none
    hasTransformers := false, hasComputed := false, depCache := none }

/-- The engine whose registry holds exactly `"c" ↦ cellC w`. -/
def subOnlyState (w : Val) (batching : Bool) (p : List String) (tr : List Event) :
    EngineState :=
  { signals := [("c", cellC w)], isBatching := batching, batchedUpdates := p
    bindingCounter := 1, trace := tr }

theorem oneCellSub_eq : oneCellSub = subOnlyState (Val.num 0) false [] [] := rfl

/-- Writing `"c"` while a batch is open: the value commits, the id is
recorded in the pending set, and nothing else happens. -/
theorem updateSignal_subOnly_batching (fuel : Nat) (v w : Val) (p : List String)
    (tr : List Event) :
    updateSignal fuel "c" v (subOnlyState w true p tr) =
      if w = v then subOnlyState w true p tr
      else subOnlyState v true (addUnique p "c") tr := by
  have go : ∀ recomp, updateSignalGo recomp "c" v (subOnlyState w true p tr) =
      if w = v then subOnlyState w true p tr
      else subOnlyState v true (addUnique p "c") tr := by
    intro recomp
    unfold updateSignalGo
    by_cases hw : w = v
    · simp [subOnlyState, lookupSignal, lookupEntry, cellC, hw]
    · simp [subOnlyState, lookupSignal, lookupEntry, cellC, hw, putSignal, setEntry]
  cases fuel with
  | zero => exact go _
  | succ n => exact go _

/-- Writing `"c"` outside a batch: the value commits and the single
subscriber is called once, on the fast path. -/
theorem updateSignal_subOnly_direct (fuel : Nat) (v w : Val) (p : List String)
    (tr : List Event) :
    updateSignal fuel "c" v (subOnlyState w false p tr) =
      if w = v then subOnlyState w false p tr
      else subOnlyState v false p (tr ++ [Event.callback "c" 1 v]) := by
  have go : ∀ recomp, updateSignalGo recomp "c" v (subOnlyState w false p tr) =
      if w = v then subOnlyState w false p tr
      else subOnlyState v false p (tr ++ [Event.callback "c" 1 v]) := by
    intro recomp
    unfold updateSignalGo
    by_cases hw : w = v
    · simp [subOnlyState, lookupSignal, lookupEntry, cellC, hw]
    · simp [subOnlyState, lookupSignal, lookupEntry, cellC, hw, putSignal, setEntry]
  cases fuel with
  | zero => exact go _
  | succ n => exact go _

/-- Flushing with an empty pending set is a no-op. -/
theorem flush_subOnly_empty (w : Val) (b : Bool) (tr : List Event) :
    flushBatchedUpdates (subOnlyState w b [] tr) = subOnlyState w b [] tr := rfl

/-- Flushing with `"c"` pending notifies its subscriber once with the
current value. -/
theorem flush_subOnly_c (w : Val) (b : Bool) (tr : List Event) :
    flushBatchedUpdates (subOnlyState w b ["c"] tr) =
      subOnlyState w b [] (tr ++ [Event.callback "c" 1 w]) := rfl

theorem addUnique_idem (l : List String) (x : String) :
    addUnique (addUnique l x) x = addUnique l x := by
  by_cases h : x ∈ l
  · simp [addUnique, h]
  · simp [addUnique, h]

/-- A batch body consisting of writes of `vs`, in order, to `"c"`. -/
def writesC (fuel : Nat) (vs : List Val) (st : EngineState) : EngineState :=
  vs.foldl (fun st2 x => updateSignal fuel "c" x st2) st

/-- Inside an open batch, any sequence of writes to `"c"` leaves the state in
single-cell shape: same trace, pending set still `[]` or `["c"]`. -/
theorem writesC_subOnly (fuel : Nat) (vs : List Val) :
    ∀ (w : Val) (p : List String) (tr : List Event),
      ∃ w2 p2, writesC fuel vs (subOnlyState w true p tr) = subOnlyState w2 true p2 tr ∧
        ((w2 = w ∧ p2 = p) ∨ p2 = addUnique p "c") := by
  induction vs with
  | nil => exact fun w p tr => ⟨w, p, rfl, Or.inl ⟨rfl, rfl⟩⟩
  | cons v rest ih =>
    intro w p tr
    have hstep : writesC fuel (v :: rest) (subOnlyState w true p tr) =
        writesC fuel rest (updateSignal fuel "c" v (subOnlyState w true p tr)) := rfl
    rw [hstep, updateSignal_subOnly_batching]
    by_cases hw : w = v
    · rw [if_pos hw]
      exact ih w p tr
    · rw [if_neg hw]
      obtain ⟨w2, p2, heq, hc⟩ := ih v (addUnique p "c") tr
      refine ⟨w2, p2, heq, Or.inr ?_⟩
      rcases hc with ⟨_, hp2⟩ | hp2
      · exact hp2
      · rw [hp2, addUnique_idem]

/-- The result of `batch(() => { set("c", v) for v in vs })` from the spec's
coalescing scenario. -/
def coalesceRun (fuel : Nat) (vs : List Val) : EngineState :=
  (batchUpdate (fun st => (writesC fuel vs st, false)) oneCellSub).1

/-! ## Claim theorems: concrete scenarios -/

/-- C2: with `doubled = computed(["base"], x => x*2)` and
`quad = computed(["doubled"], x => x*2)`, the single non-batched write
`set("base", 5)` leaves `get("doubled") = 10` and `get("quad") = 20`: the
write propagates through both levels of the chain in one pass with no stale
intermediate value left behind. -/
theorem c2_computed_chain_one_write :
    getValue chainAfterSet "doubled" = Val.num 10 ∧
    getValue chainAfterSet "quad" = Val.num 20 := by
  decide

/-- C1 counterexample: after a batch flush, the computed cell `c` (compute
`x => x*2` of `b`, transformer `x => x+100`) has `value = 6`, while its
transformer chain applied to its `rawValue` gives `102` and applied to the
freshly computed raw value `mul2 [b.value] = 6` gives `106`; the visible
value matches neither, so the claimed invariant fails after a batch flush. -/
theorem c1_counterexample_flush_skips_transformers :
    (lookupSignal flushTransformState "c").map Signal.value = some (Val.num 6) ∧
    (lookupSignal flushTransformState "c").map
      (fun sig => applyTransformers sig.rawValue (chainOf sig)) = some (Val.num 102) ∧
    (lookupSignal flushTransformState "c").map
      (fun sig => applyTransformers (mul2 [getValue flushTransformState "b"]) (chainOf sig)) =
      some (Val.num 106) ∧
    (lookupSignal flushTransformState "c").map Signal.value ≠
      (lookupSignal flushTransformState "c").map
        (fun sig => applyTransformers sig.rawValue (chainOf sig)) := by
  decide

/-- C3 counterexample: writing `b = 5` and `d = 99` inside one batch, where
`d` is a computed dependent of `b`, makes the flush notify `d`'s single
subscriber twice (once as a directly written cell, once as a changed
recomputed dependent), refuting the at-most-once bound for this case. -/
theorem c3_counterexample_written_dependent_notified_twice :
    writtenDependentState.trace =
      [Event.callback "d" 1 (Val.num 10), Event.callback "d" 1 (Val.num 10)] ∧
    writtenDependentState.trace.count (Event.callback "d" 1 (Val.num 10)) = 2 := by
  decide

/-- C5 counterexample: with the chain `base → doubled → quad`, a batched
write to `base` recomputes only the direct dependent `doubled` (now `10`);
the transitively reachable computed cell `quad` is not recomputed and stays
stale at `4` (a closure recompute against current dependency values would
give `20`). -/
theorem c5_counterexample_no_transitive_recompute :
    getValue chainFlushState "doubled" = Val.num 10 ∧
    getValue chainFlushState "quad" = Val.num 4 ∧
    getValue chainFlushState "quad" ≠ Val.num 20 := by
  decide

/-- C5 amended: on outermost batch close, only the direct dependents of the
pending cells are recomputed (once each, against current dependency values),
those that changed are appended to the flush list, and subscribers are
notified in pending-insertion order with source writes before their direct
computed effects: here the trace is exactly `base` then `doubled`, each once,
while the transitive dependent `quad` is left stale. -/
theorem c5_amended_direct_dependents_flush :
    chainFlushState.trace =
      [Event.callback "base" 1 (Val.num 5), Event.callback "doubled" 2 (Val.num 10)] ∧
    getValue chainFlushState "doubled" = Val.num 10 ∧
    getValue chainFlushState "quad" = Val.num 4 := by
  decide

/-- C6 counterexample: after `upsert("a", 0, {transform: x => x+1})` then
`upsert("a", 0, {transform: x => x*10})`, the second upsert appends the new
transformer but does not reapply the chain, so the cell's visible value is
still `1`, not `g(f(raw)) = 10`. -/
theorem c6_counterexample_upsert_keeps_stale_value :
    getValue doubleUpsertState "a" = Val.num 1 ∧
    getRawValue doubleUpsertState "a" = Val.num 0 ∧
    (lookupSignal doubleUpsertState "a").map
      (fun sig => applyTransformers sig.rawValue (chainOf sig)) = some (Val.num 10) ∧
    getValue doubleUpsertState "a" ≠ Val.num 10 := by
  decide

/-- C7 counterexample: after `remove("c")` where `c` was computed from `b`,
the cell `c` is gone from the registry but `b`'s `computed` (dependents) set
still contains `"c"` — cleanup does not remove dependency-graph edges. -/
theorem c7_counterexample_dangling_dependent_edge :
    (lookupSignal removedComputedState "c").isSome = false ∧
    (lookupSignal removedComputedState "b").map Signal.computed = some ["c"] := by
  decide

/-! ## Claim theorems: general statements -/

/-- C3 amended: for any sequence of writes to the subscribed cell `"c"`
inside one outermost batch, the subscriber is notified at most once, and any
notification carries the cell's final value.  (The bound does not extend to
a computed cell that is both written directly and recomputed as a changed
dependent in the same flush — see the C3 counterexample, where it is
notified twice.) -/
theorem c3_amended_batch_coalescing (fuel : Nat) (vs : List Val) :
    (coalesceRun fuel vs).trace.length ≤ 1 ∧
    ∀ e ∈ (coalesceRun fuel vs).trace,
      e = Event.callback "c" 1 (getValue (coalesceRun fuel vs) "c") := by
  obtain ⟨w2, p2, heq, hc⟩ := writesC_subOnly fuel vs (Val.num 0) [] []
  have hrun : coalesceRun fuel vs =
      flushBatchedUpdates (subOnlyState w2 false p2 []) := by
    have hb : coalesceRun fuel vs = flushBatchedUpdates
        { writesC fuel vs (subOnlyState (Val.num 0) true [] []) with
            isBatching := false } := rfl
    rw [hb, heq]
    rfl
  have hp2 : p2 = [] ∨ p2 = ["c"] := by
    rcases hc with ⟨_, hp⟩ | hp
    · exact Or.inl hp
    · exact Or.inr hp
  rcases hp2 with hp | hp
  · rw [hrun, hp, flush_subOnly_empty]
    exact ⟨by simp [subOnlyState], by simp [subOnlyState]⟩
  · rw [hrun, hp, flush_subOnly_c]
    constructor
    · simp [subOnlyState]
    · intro e he
      simp only [subOnlyState, List.nil_append, List.mem_singleton] at he
      rw [he]
      rfl

/-- Witness for C3 amended at the spec's own scenario `v1, v2, v3`. -/
theorem c3_amended_batch_coalescing_witness :
    (coalesceRun 5 [Val.num 1, Val.num 2, Val.num 3]).trace.length ≤ 1 ∧
    Event.callback "c" 1 (Val.num 3) =
      Event.callback "c" 1 (getValue (coalesceRun 5 [Val.num 1, Val.num 2, Val.num 3]) "c") := by
  constructor
  · exact (c3_amended_batch_coalescing 5 [Val.num 1, Val.num 2, Val.num 3]).1
  · exact (c3_amended_batch_coalescing 5 [Val.num 1, Val.num 2, Val.num 3]).2
      (Event.callback "c" 1 (Val.num 3)) (by decide)

/-- `updateSignal` is a strict no-op (same state, no events) when the
post-transform value equals the current value. -/
theorem updateSignalGo_noop (recomp : String → EngineState → EngineState)
    (id : String) (v : Val) (s : EngineState) (sig : Signal)
    (hl : lookupSignal s id = some sig) (hv : effValue sig v = sig.value) :
    updateSignalGo recomp id v s = s := by
  unfold updateSignalGo
  rw [hl]
  dsimp only
  by_cases ht : sig.hasTransformers = false
  · rw [if_pos ht]
    have hv2 : v = sig.value := by simpa [effValue, ht] using hv
    rw [if_pos hv2.symm]
  · rw [if_neg ht]
    have htt : sig.hasTransformers = true := by
      cases h2 : sig.hasTransformers
      · exact absurd h2 ht
      · rfl
    have hv2 : applyTransformers v (sig.transformers.getD []) = sig.value := by
      simpa [effValue, htt] using hv
    rw [if_pos hv2.symm]

/-- C4: (1) a write whose post-transform value is identical to the current
`value` changes nothing at all — no subscriber or binding invocation, no
dependent recompute, state untouched; (2) hence writing `v` twice to the
subscribed cell `"c"` invokes the subscriber exactly once, with `v`, and the
second write returns the state unchanged. -/
theorem c4_identity_gated_propagation :
    (∀ fuel id v s sig, lookupSignal s id = some sig → effValue sig v = sig.value →
        updateSignal fuel id v s = s) ∧
    (∀ fuel v, v ≠ Val.num 0 →
        (updateSignal fuel "c" v oneCellSub).trace = [Event.callback "c" 1 v] ∧
        updateSignal fuel "c" v (updateSignal fuel "c" v oneCellSub) =
          updateSignal fuel "c" v oneCellSub) := by
  constructor
  · intro fuel id v s sig hl hv
    cases fuel with
    | zero => exact updateSignalGo_noop _ id v s sig hl hv
    | succ n => exact updateSignalGo_noop _ id v s sig hl hv
  · intro fuel v hv
    have hne : ¬(Val.num 0 = v) := fun he => hv he.symm
    have h1 : updateSignal fuel "c" v oneCellSub =
        subOnlyState v false [] [Event.callback "c" 1 v] := by
      rw [oneCellSub_eq, updateSignal_subOnly_direct, if_neg hne]
      rfl
    have h2 : updateSignal fuel "c" v (subOnlyState v false [] [Event.callback "c" 1 v]) =
        subOnlyState v false [] [Event.callback "c" 1 v] := by
      rw [updateSignal_subOnly_direct, if_pos rfl]
    refine ⟨by rw [h1]; rfl, ?_⟩
    rw [h1, h2]

/-- Witness for C4 at concrete inputs. -/
theorem c4_identity_gated_propagation_witness :
    updateSignal 1 "x" (Val.num 7) (createSignal "x" (Val.num 7) none initState) =
      createSignal "x" (Val.num 7) none initState ∧
    (updateSignal 3 "c" (Val.num 5) oneCellSub).trace =
      [Event.callback "c" 1 (Val.num 5)] := by
  constructor
  · exact c4_identity_gated_propagation.1 1 "x" (Val.num 7)
      (createSignal "x" (Val.num 7) none initState) _ rfl rfl
  · exact (c4_identity_gated_propagation.2 3 (Val.num 5) (by decide)).1

/-- C8: if the batch body writes `"c"` and then throws, the outermost batch
still flushes — the subscriber receives the committed value — and the
exception propagates to the caller afterwards (the returned flag). -/
theorem c8_exception_still_flushes (fuel : Nat) (v : Val) (hv : v ≠ Val.num 0) :
    (batchUpdate (fun st => (updateSignal fuel "c" v st, true)) oneCellSub).2 = true ∧
    (batchUpdate (fun st => (updateSignal fuel "c" v st, true)) oneCellSub).1.trace =
      [Event.callback "c" 1 v] ∧
    (batchUpdate (fun st => (updateSignal fuel "c" v st, true)) oneCellSub).1.batchedUpdates =
      [] := by
  have hne : ¬(Val.num 0 = v) := fun he => hv he.symm
  have h1 : updateSignal fuel "c" v (subOnlyState (Val.num 0) true [] []) =
      subOnlyState v true ["c"] [] := by
    rw [updateSignal_subOnly_batching, if_neg hne]
    rfl
  have hb : batchUpdate (fun st => (updateSignal fuel "c" v st, true)) oneCellSub =
      (flushBatchedUpdates
        { updateSignal fuel "c" v (subOnlyState (Val.num 0) true [] []) with
            isBatching := false }, true) := rfl
  rw [hb, h1]
  have h2 : ({ subOnlyState v true ["c"] ([] : List Event) with isBatching := false}) =
      subOnlyState v false ["c"] [] := rfl
  rw [h2, flush_subOnly_c]
  exact ⟨rfl, by simp [subOnlyState], rfl⟩

/-- Witness for C8 at `v = 7`. -/
theorem c8_exception_still_flushes_witness :
    (batchUpdate (fun st => (updateSignal 2 "c" (Val.num 7) st, true)) oneCellSub).2 = true ∧
    (batchUpdate (fun st => (updateSignal 2 "c" (Val.num 7) st, true)) oneCellSub).1.trace =
      [Event.callback "c" 1 (Val.num 7)] ∧
    (batchUpdate (fun st => (updateSignal 2 "c" (Val.num 7) st, true)) oneCellSub).1.batchedUpdates =
      [] :=
  c8_exception_still_flushes 2 (Val.num 7) (by decide)

/-- `createSignal` on an id that already exists returns the state unchanged. -/
theorem createSignal_existing (s : EngineState) (id : String) (v : Val)
    (t : Option TransformArg) (h : (lookupSignal s id).isSome = true) :
    createSignal id v t s = s := by
  unfold createSignal
  rw [if_pos h]

/-- C9: `create(id, v1)` then `create(id, v2)` (any options) leaves the
registry exactly as after the first create, and the cell's value is `v1`:
creation is first-writer-wins and idempotent in its effect. -/
theorem c9_create_first_writer_wins (s : EngineState) (id : String) (v1 v2 : Val)
    (t2 : Option TransformArg) (h : lookupSignal s id = none) :
    createSignal id v2 t2 (createSignal id v1 none s) = createSignal id v1 none s ∧
    getValue (createSignal id v1 none s) id = v1 := by
  have h1 : lookupSignal (createSignal id v1 none s) id = some
      { value := v1, rawValue := v1, bindings := [], callbacks := [], computed := []
        computeFn := none, dependencies := none, transformers := none
        hasTransformers := false, hasComputed := false, depCache := none } := by
    unfold createSignal
    rw [h]
    exact lookupSignal_putSignal_self s id _
  constructor
  · exact createSignal_existing _ id v2 t2 (by rw [h1]; rfl)
  · simp [getValue, h1]

/-- Witness for C9 at a fresh id. -/
theorem c9_create_first_writer_wins_witness :
    createSignal "x" (Val.num 2) none (createSignal "x" (Val.num 1) none initState) =
      createSignal "x" (Val.num 1) none initState ∧
    getValue (createSignal "x" (Val.num 1) none initState) "x" = Val.num 1 :=
  c9_create_first_writer_wins initState "x" (Val.num 1) (Val.num 2) none rfl

/-- A changed write while a batch is open: commit the value, record the id as
pending, defer everything else. -/
theorem updateSignalGo_batching (recomp : String → EngineState → EngineState)
    (id : String) (v : Val) (s : EngineState) (sig : Signal)
    (hb : s.isBatching = true) (hl : lookupSignal s id = some sig)
    (hne : effValue sig v ≠ sig.value) :
    updateSignalGo recomp id v s =
      { putSignal s id { sig with rawValue := v, value := effValue sig v } with
          batchedUpdates := addUnique s.batchedUpdates id } := by
  unfold updateSignalGo
  rw [hl]
  dsimp only
  by_cases ht : sig.hasTransformers = false
  · rw [if_pos ht]
    have hne2 : ¬sig.value = v := by
      intro he
      exact hne (by simp [effValue, ht, he])
    rw [if_neg hne2]
    have hbb : (putSignal s id { sig with rawValue := v, value := v }).isBatching = true := hb
    rw [if_pos hbb]
    simp [effValue, ht, putSignal]
  · rw [if_neg ht]
    have htt : sig.hasTransformers = true := by
      cases h2 : sig.hasTransformers
      · exact absurd h2 ht
      · rfl
    have hne2 : ¬sig.value = applyTransformers v (sig.transformers.getD []) := by
      intro he
      refine hne ?_
      simp only [effValue, htt, if_pos rfl]
      exact he.symm
    rw [if_neg hne2]
    have hbb : (putSignal s id
        { sig with rawValue := v
                   value := applyTransformers v (sig.transformers.getD []) }).isBatching =
        true := hb
    rw [if_pos hbb]
    simp [effValue, htt, putSignal]

theorem lookupSignal_set_batched (s : EngineState) (p : List String) (id : String) :
    lookupSignal { s with batchedUpdates := p } id = lookupSignal s id := rfl

/-- C10: while a batch is open, a `set` on an existing cell whose
post-transform value differs from the current value commits immediately —
`get` and `getRaw` observe the new values from inside the still-open batch —
while notification is deferred (trace unchanged) and the id is merely added
to the pending set; no other cell is touched. -/
theorem c10_writes_commit_inside_batch (fuel : Nat) (id : String) (v : Val)
    (s : EngineState) (sig : Signal) (hb : s.isBatching = true)
    (hl : lookupSignal s id = some sig) (hne : effValue sig v ≠ sig.value) :
    getValue (updateSignal fuel id v s) id = effValue sig v ∧
    getRawValue (updateSignal fuel id v s) id = v ∧
    (updateSignal fuel id v s).trace = s.trace ∧
    (updateSignal fuel id v s).isBatching = true ∧
    (updateSignal fuel id v s).batchedUpdates = addUnique s.batchedUpdates id ∧
    ∀ id2, id ≠ id2 → lookupSignal (updateSignal fuel id v s) id2 = lookupSignal s id2 := by
  have hgo : updateSignal fuel id v s =
      { putSignal s id { sig with rawValue := v, value := effValue sig v } with
          batchedUpdates := addUnique s.batchedUpdates id } := by
    cases fuel with
    | zero => exact updateSignalGo_batching _ id v s sig hb hl hne
    | succ n => exact updateSignalGo_batching _ id v s sig hb hl hne
  rw [hgo]
  refine ⟨?_, ?_, rfl, hb, rfl, ?_⟩
  · simp [getValue, lookupSignal_set_batched, lookupSignal_putSignal_self]
  · simp [getRawValue, lookupSignal_set_batched, lookupSignal_putSignal_self]
  · intro id2 hne2
    rw [lookupSignal_set_batched, lookupSignal_putSignal_other s id id2 _ hne2]

/-- Witness for C10 on the single-cell state with an open batch. -/
theorem c10_writes_commit_inside_batch_witness :
    getValue (updateSignal 1 "c" (Val.num 1) (subOnlyState (Val.num 0) true [] [])) "c" =
      effValue (cellC (Val.num 0)) (Val.num 1) ∧
    getRawValue (updateSignal 1 "c" (Val.num 1) (subOnlyState (Val.num 0) true [] [])) "c" =
      Val.num 1 := by
  refine ⟨?_, ?_⟩
  · exact (c10_writes_commit_inside_batch 1 "c" (Val.num 1)
      (subOnlyState (Val.num 0) true [] []) (cellC (Val.num 0)) rfl rfl (by decide)).1
  · exact (c10_writes_commit_inside_batch 1 "c" (Val.num 1)
      (subOnlyState (Val.num 0) true [] []) (cellC (Val.num 0)) rfl rfl (by decide)).2.1

/-- C6 amended: upserting a transformer chain `us` onto an existing cell with
chain `ts` appends (never replaces): the stored chain becomes `ts ++ us`.
The upsert itself leaves the visible value untouched; the full appended chain
takes effect on the next write, whose resulting value is
`applyTransformers w (ts ++ us)` (i.e. `g(f(w))` for single transformers). -/
theorem c6_amended_upsert_appends (s : EngineState) (id : String) (sig : Signal)
    (ts us : List (Val → Val)) (v w : Val) (fuel : Nat)
    (hl : lookupSignal s id = some sig) (hts : sig.transformers = some ts)
    (hnc : sig.hasComputed = false) :
    lookupSignal (upsertSignal id v (some (.chain us)) s) id =
      some { sig with transformers := some (ts ++ us), hasTransformers := true } ∧
    getValue (upsertSignal id v (some (.chain us)) s) id = sig.value ∧
    getValue (updateSignal fuel id w (upsertSignal id v (some (.chain us)) s)) id =
      applyTransformers w (ts ++ us) := by
  have hup : upsertSignal id v (some (.chain us)) s =
      putSignal s id { sig with transformers := some (ts ++ us), hasTransformers := true } := by
    unfold upsertSignal
    rw [hl]
    dsimp only [normalizeTransformers]
    rw [hts]
    rfl
  have hl2 : lookupSignal (upsertSignal id v (some (.chain us)) s) id =
      some { sig with transformers := some (ts ++ us), hasTransformers := true } := by
    rw [hup]
    exact lookupSignal_putSignal_self s id _
  refine ⟨hl2, by simp [getValue, hl2], ?_⟩
  by_cases hsame : ({ sig with transformers := some (ts ++ us), hasTransformers := true } : Signal).value = applyTransformers w (ts ++ us)
  · have hnoop : updateSignal fuel id w (upsertSignal id v (some (.chain us)) s) =
        upsertSignal id v (some (.chain us)) s := by
      cases fuel with
      | zero => exact updateSignalGo_noop _ id w _ _ hl2 (by simpa [effValue] using hsame.symm)
      | succ n => exact updateSignalGo_noop _ id w _ _ hl2 (by simpa [effValue] using hsame.symm)
    rw [hnoop]
    simpa [getValue, hl2] using hsame
  · have hval : ∀ recomp, getValue (updateSignalGo recomp id w
        (upsertSignal id v (some (.chain us)) s)) id = applyTransformers w (ts ++ us) := by
      intro recomp
      unfold updateSignalGo
      rw [hl2]
      dsimp only
      rw [if_neg (by simp)]
      rw [if_neg (by simpa using hsame)]
      split
      · simp [getValue, lookupSignal_set_batched, lookupSignal_putSignal_self]
      · rw [if_neg (by simp [hnc])]
        simp [getValue, lookupSignal_executeDOMUpdates, lookupSignal_putSignal_self]
    cases fuel with
    | zero => exact hval _
    | succ n => exact hval _

/-- Witness for C6 amended: chain `[plus1]` extended by `[times10]`; the next
write of `3` yields `(3+1)*10 = 40`. -/
theorem c6_amended_upsert_appends_witness :
    getValue (updateSignal 1 "a" (Val.num 3)
      (upsertSignal "a" (Val.num 0) (some (.chain [times10]))
        (createSignal "a" (Val.num 0) (some (.single plus1)) initState))) "a" =
      applyTransformers (Val.num 3) ([plus1] ++ [times10]) :=
  (c6_amended_upsert_appends
    (createSignal "a" (Val.num 0) (some (.single plus1)) initState) "a" _
    [plus1] [times10] (Val.num 0) (Val.num 3) 1 rfl rfl rfl).2.2

/-- C7 amended: `remove(id)` deletes the cell (its subscribers with it) and
touches nothing else: removing an unknown id is a no-op, and every other
cell — including dependency cells whose `computed` sets may still mention the
removed id — is left exactly as it was (graph edges are not cleaned). -/
theorem c7_amended_remove_semantics (s : EngineState) (id : String)
    (hnd : (s.signals.map Prod.fst).Nodup) :
    lookupSignal (cleanup id s) id = none ∧
    (lookupSignal s id = none → cleanup id s = s) ∧
    (∀ id2, id2 ≠ id → lookupSignal (cleanup id s) id2 = lookupSignal s id2) := by
  refine ⟨?_, ?_, ?_⟩
  · unfold cleanup
    cases hl : lookupSignal s id with
    | none => exact hl
    | some sig => exact lookupEntry_removeEntry_self s.signals id hnd
  · intro h0
    unfold cleanup
    rw [h0]
  · intro id2 hne
    unfold cleanup
    cases hl : lookupSignal s id with
    | none => rfl
    | some sig => exact lookupEntry_removeEntry_other s.signals id id2 hne

/-- Witness for C7 amended on a one-cell registry. -/
theorem c7_amended_remove_semantics_witness :
    lookupSignal (cleanup "b" (createSignal "b" (Val.num 1) none initState)) "b" = none ∧
    lookupSignal (cleanup "b" (createSignal "b" (Val.num 1) none initState)) "x" =
      lookupSignal (createSignal "b" (Val.num 1) none initState) "x" := by
  constructor
  · exact (c7_amended_remove_semantics (createSignal "b" (Val.num 1) none initState) "b"
      (by decide)).1
  · exact (c7_amended_remove_semantics (createSignal "b" (Val.num 1) none initState) "b"
      (by decide)).2.2 "x" (by decide)

end TinySignals
